import Mathlib

/-!
Shallow embedding of the cruddy CRUD handler (src/cruddy/__init__.py): a thin
adaptation layer exposing create/update/get/delete/list/query over a single
hash-keyed DynamoDB table.  Python values are modelled by the mutual inductive
family `PyVal`/`PyList`/`PyDict`; the DynamoDB store, the KMS client and the
uuid/clock generators are modelled by an explicit environment `Env`.  Each
operation returns the response envelope together with the list of store
requests it issued, or a raised Python exception (`PyResult`).
-/

namespace Cruddy

mutual
/-- Python values as they occur in cruddy items.  `decimal.Decimal` values are
modelled as exact rational numbers (every finite Decimal is a rational); Python
floats are likewise carried exactly, since no claim here depends on IEEE
rounding, only on which values become floats. -/
inductive PyVal where
  | pstr : String → PyVal
  | pint : Int → PyVal
  | pfloat : Rat → PyVal
  | pdec : Rat → PyVal
  | pbool : Bool → PyVal
  | pnone : PyVal
  | plist : PyList → PyVal
  | pdict : PyDict → PyVal
deriving DecidableEq
/-- A Python list of `PyVal`s (spelled as its own inductive so that mutual
structural recursion and `decide` both work). -/
inductive PyList where
  | nil : PyList
  | cons : PyVal → PyList → PyList
deriving DecidableEq
/-- A Python dict with string keys and `PyVal` values, as an association
list. -/
inductive PyDict where
  | nil : PyDict
  | cons : String → PyVal → PyDict → PyDict
deriving DecidableEq
end

/-- An item, i.e. the Python dict cruddy reads and writes. -/
abbrev Item := PyDict

/-- Conversion from a Lean list of values to a Python list value. -/
def PyList.ofList : List PyVal → PyList
  | [] => .nil
  | x :: xs => .cons x (PyList.ofList xs)

/-- Python dict lookup `d[k]` (`None` when the key is absent). -/
def dictGet : PyDict → String → Option PyVal
  | .nil, _ => none
  | .cons k1 v1 rest, k => if k1 = k then some v1 else dictGet rest k

/-- Python dict assignment `d[k] = v`: replaces the binding when the key is
present, otherwise appends it. -/
def dictSet : PyDict → String → PyVal → PyDict
  | .nil, k, v => .cons k v .nil
  | .cons k1 v1 rest, k, v =>
      if k1 = k then .cons k v rest else .cons k1 v1 (dictSet rest k v)

/-- Python membership test `k in d`. -/
def dictHas (d : PyDict) (k : String) : Bool :=
  (dictGet d k).isSome

/-- Lookup in a plain association list (used for the defaults dict, whose
values are strings, and for the index map). -/
def alGet {α : Type} : List (String × α) → String → Option α
  | [], _ => none
  | (k1, v1) :: rest, k => if k1 = k then some v1 else alGet rest k

/-- Assignment in a plain association list, with Python dict semantics. -/
def alSet {α : Type} : List (String × α) → String → α → List (String × α)
  | [], k, v => [(k, v)]
  | (k1, v1) :: rest, k, v =>
      if k1 = k then (k, v) :: rest else (k1, v1) :: alSet rest k v

mutual
/-- CRUD._replace_decimals: recursively converts Decimal values coming back
from the store into native numbers: a whole-number Decimal becomes an int
(`obj % 1 == 0` in the source, i.e. denominator 1), any other Decimal becomes
a float. -/
def replaceDecimals : PyVal → PyVal
  | .plist xs => .plist (replaceDecimalsList xs)
  | .pdict d => .pdict (replaceDecimalsDict d)
  | .pdec q => if q.den = 1 then .pint q.num else .pfloat q
  | v => v
/-- CRUD._replace_decimals on the elements of a Python list. -/
def replaceDecimalsList : PyList → PyList
  | .nil => .nil
  | .cons x xs => .cons (replaceDecimals x) (replaceDecimalsList xs)
/-- CRUD._replace_decimals on the values of a Python dict. -/
def replaceDecimalsDict : PyDict → PyDict
  | .nil => .nil
  | .cons k v rest => .cons k (replaceDecimals v) (replaceDecimalsDict rest)
end

mutual
/-- Verification predicate (not from the source): `true` iff the value
contains no `decimal.Decimal` anywhere. -/
def noDecimal : PyVal → Bool
  | .plist xs => noDecimalList xs
  | .pdict d => noDecimalDict d
  | .pdec _ => false
  | _ => true
/-- The noDecimal check over a Python list. -/
def noDecimalList : PyList → Bool
  | .nil => true
  | .cons x xs => noDecimal x && noDecimalList xs
/-- The noDecimal check over a Python dict. -/
def noDecimalDict : PyDict → Bool
  | .nil => true
  | .cons _ v rest => noDecimal v && noDecimalDict rest
end

/-- A raised Python exception: class name and message.  Messages are
abbreviated renderings of the CPython ones; no claim reads them. -/
structure PyExn where
  cls : String
  msg : String
deriving DecidableEq

/-! ### base64 (the parts of Python `base64` the source uses)

Bytes are modelled as natural numbers below 256; `CiphertextBlob`s coming from
KMS are byte lists.  `b64encode` is total, as in Python; `b64decode` follows
the binascii a2b_base64 state machine of Python 2, including its failure
(`Incorrect padding`, raised as TypeError), since on the get-with-decrypt
path the source applies it to arbitrary stored values and the exception
escapes the store-call try block. -/

/-- The standard base64 alphabet. -/
def b64Alphabet : List Char :=
  "ABCDEFGHIJKLMNOPQRSTUVWXYZabcdefghijklmnopqrstuvwxyz0123456789+/".data

/-- The character encoding a six-bit group. -/
def b64Char (n : Nat) : Char := b64Alphabet.getD n '?'

/-- The six-bit group a base64 character encodes. -/
def b64Index (c : Char) : Option Nat := b64Alphabet.findIdx? (fun x => x == c)

/-- base64.b64encode on a byte list, producing the encoded characters. -/
def base64Encode : List Nat → List Char
  | [] => []
  | [a] => [b64Char (a / 4), b64Char (a % 4 * 16), '=', '=']
  | [a, b] => [b64Char (a / 4), b64Char (a % 4 * 16 + b / 16), b64Char (b % 16 * 4), '=']
  | a :: b :: c :: rest =>
      b64Char (a / 4) :: b64Char (a % 4 * 16 + b / 16) ::
      b64Char (b % 16 * 4 + c / 64) :: b64Char (c % 64) :: base64Encode rest

/-- The characters binascii's base64 decoder treats as relevant: alphabet
characters and the padding `=`; everything else is skipped. -/
def b64Relevant (c : Char) : Bool := (b64Index c).isSome || c = '='

/-- The state machine of binascii a2b_base64 (Python 2), which backs
base64.b64decode: alphabet characters accumulate six-bit groups (`quad`) and
emit a byte into `out` from the second group position on; characters outside
the alphabet are skipped; a padding `=` terminates the data when the current
group holds three sextets, or two sextets with the next relevant character
again `=`, and is otherwise skipped; leftover bits at the end of the input
raise Incorrect padding, which Python 2 surfaces as a TypeError. -/
def a2bBase64 : List Char → List Nat → List Nat → Except PyExn (List Nat)
  | [], out, quad =>
      if quad.isEmpty then .ok out else .error ⟨"TypeError", "Incorrect padding"⟩
  | c :: rest, out, quad =>
      if c = '=' then
        match quad with
        | [_, _, _] => .ok out
        | [_, _] =>
            match rest.filter b64Relevant with
            | '=' :: _ => .ok out
            | _ => a2bBase64 rest out quad
        | _ => a2bBase64 rest out quad
      else
        match b64Index c with
        | none => a2bBase64 rest out quad
        | some s =>
            match quad with
            | [] => a2bBase64 rest out [s]
            | [s1] => a2bBase64 rest (out ++ [s1 * 4 + s / 16]) [s1, s]
            | [s1, s2] => a2bBase64 rest (out ++ [s2 % 16 * 16 + s / 4]) [s1, s2, s]
            | s1 :: s2 :: s3 :: _ => a2bBase64 rest (out ++ [s3 % 4 * 64 + s]) []

/-- base64.b64decode on characters: the byte list, or the Incorrect padding
failure of binascii. -/
def base64Decode (cs : List Char) : Except PyExn (List Nat) :=
  a2bBase64 cs [] []

/-! ### Tokens -/

/-- The index of the last occurrence of `c` in `p`, if any. -/
def lastIdxOf (c : Char) (p : List Char) : Option Nat :=
  match p.reverse.findIdx? (fun x => x == c) with
  | some j => some (p.length - 1 - j)
  | none => none

/-- The group captured by the Tokens.token_re regular expression
`\<([^\s]+)\>` when matched (anchored at the start, greedy) against `s`:
`s` must start with `<`; the group is the run of non-whitespace characters
up to the last `>` inside that run, and must be non-empty. -/
def tokenGroup (s : String) : Option String :=
  match s.data with
  | '<' :: rest =>
      let p := rest.takeWhile (fun c => !c.isWhitespace)
      match lastIdxOf '>' p with
      | some i => if 1 ≤ i then some (String.mk (p.take i)) else none
      | none => none
  | _ => none

/-! ### Environment: DynamoDB, KMS, uuid and clock -/

/-- A request cruddy can issue to the DynamoDB table. -/
inductive DDBRequest where
  | putItem : Item → DDBRequest
  | getItem : Item → Bool → DDBRequest
  | deleteItem : Item → DDBRequest
  | scan : DDBRequest
  | queryIdx : String → String → String → DDBRequest
deriving DecidableEq

/-- The raw response of a successful DynamoDB call: the optional `Item` of a
get, the `Items` of a scan or query, and the always-present
`ResponseMetadata`. -/
structure RawResponse where
  Item : Option Cruddy.Item
  Items : List Cruddy.Item
  ResponseMetadata : PyVal
deriving DecidableEq

/-- The outcome of one DynamoDB call: success, a botocore `ClientError`
(carrying `Message`, `Code` and `Type`, each possibly absent), or any other
raised exception (class name and message). -/
inductive DDBOutcome where
  | ok : RawResponse → DDBOutcome
  | clientError : Option String → Option String → Option String → DDBOutcome
  | exn : String → String → DDBOutcome

/-- The external world of one operation call: the store, the KMS client and
the generators behind the `<uuid>` and `<timestamp>` tokens.  The KMS
encrypt and decrypt calls can fail (a botocore ClientError or any other
exception raised by the client); the source invokes them outside the
store-call try block, so such a failure propagates to the caller.  `uuid` is
the value `uuid.uuid4()` returns during the call and `timestamp` the value of
`int(time.time() * 1000)`; uniqueness of uuids across calls is a property of
the generator, assumed, not modelled. -/
structure Env where
  ddb : DDBRequest → DDBOutcome
  kmsEncrypt : String → PyVal → Except PyExn (List Nat)
  kmsDecrypt : List Nat → Except PyExn PyVal
  uuid : String
  timestamp : Int

/-- CRUDResponse: the uniform response envelope. -/
structure CRUDResponse where
  debug : Bool
  status : String
  data : Option PyVal
  error_type : Option String
  error_code : Option String
  error_message : Option String
  raw_response : Option RawResponse
  metadata : Option PyVal
deriving DecidableEq

/-- The result of one operation call: the envelope together with the store
requests issued during the call, or a Python exception propagating to the
caller. -/
inductive PyResult where
  | ok : CRUDResponse → List DDBRequest → PyResult
  | raise : PyExn → PyResult
deriving DecidableEq

/-- CRUDResponse.__init__. -/
def newResponse (debug : Bool) : CRUDResponse :=
  ⟨debug, "success", none, none, none, none, none, none⟩

/-- CRUDResponse.prepare: on success, when a raw response is present and debug
is off, moves its ResponseMetadata into `metadata` and drops the raw
response. -/
def prepare (r : CRUDResponse) : CRUDResponse :=
  if r.status = "success" then
    match r.raw_response with
    | some raw =>
        if r.debug then r
        else { r with metadata := some raw.ResponseMetadata, raw_response := none }
    | none => r
  else r

/-- The configuration a CRUD handler carries after __init__: the defaults
dict (string-valued, as in the source defaults), the supported operation
names, the `(attribute, KMS master key id)` pairs to encrypt, the map from
indexed attribute name to GSI name built by _analyze_table, and the debug
flag. -/
structure CRUDConfig where
  defaults : List (String × String)
  supported_ops : List String
  encrypted_attributes : List (String × String)
  indexes : List (String × String)
  debug : Bool

/-- CRUD.SupportedOps. -/
def SupportedOps : List String := ["create", "update", "get", "delete", "list", "query"]

/-- Tokens.check: when the value matches `\<(token)\>` and the token names a
generator (`uuid` or `timestamp`), returns a freshly generated value,
otherwise returns the value itself (as the string it was). -/
def tokensCheck (env : Env) (token : String) : PyVal :=
  match tokenGroup token with
  | some g =>
      if g = "uuid" then .pstr env.uuid
      else if g = "timestamp" then .pint env.timestamp
      else .pstr token
  | none => .pstr token

/-- CRUD._handle_defaults: fills every defaults key missing from the item with
its (token-expanded) default value; keys already present are untouched. -/
def handleDefaults (cfg : CRUDConfig) (env : Env) (item : Item) : Item :=
  cfg.defaults.foldl
    (fun it kv => if dictHas it kv.1 then it else dictSet it kv.1 (tokensCheck env kv.2))
    item

/-- CRUD._check_supported_op: flips the response to an UnsupportedOperation
error when the operation is not allow-listed; the Bool mirrors the source
return value. -/
def checkSupportedOp (cfg : CRUDConfig) (opName : String) (r : CRUDResponse) :
    CRUDResponse × Bool :=
  if opName ∈ cfg.supported_ops then (r, true)
  else
    ({ r with status := "error", error_type := some "UnsupportedOperation",
              error_message := some ("Unsupported operation: " ++ opName) }, false)

/-- CRUD._call_ddb_method: issues the request and either records the raw
response or converts the ClientError / generic exception into error fields.
The issued request is returned so that claims can speak about store
traffic. -/
def callDDB (env : Env) (req : DDBRequest) (r : CRUDResponse) :
    CRUDResponse × List DDBRequest :=
  match env.ddb req with
  | .ok raw => ({ r with raw_response := some raw }, [req])
  | .clientError msg code ty =>
      ({ r with status := "error", error_message := msg, error_code := code,
                error_type := ty }, [req])
  | .exn cls msg =>
      ({ r with status := "error", error_type := some cls, error_code := none,
                error_message := some msg }, [req])

/-- The loop body of CRUD._encrypt over the configured attribute list: each
configured attribute present in the item is replaced by the base64 encoding
of the KMS ciphertext of its value; a failing KMS call raises out of the
loop, as in the source (the call is outside any try block). -/
def encryptList (env : Env) : List (String × String) → Item → Except PyExn Item
  | [], it => .ok it
  | p :: rest, it =>
      match dictGet it p.1 with
      | some v =>
          match env.kmsEncrypt p.2 v with
          | .ok blob =>
              encryptList env rest (dictSet it p.1 (.pstr (String.mk (base64Encode blob))))
          | .error e => .error e
      | none => encryptList env rest it

/-- CRUD._encrypt. -/
def encryptItem (cfg : CRUDConfig) (env : Env) (item : Item) : Except PyExn Item :=
  encryptList env cfg.encrypted_attributes item

/-- The loop body of CRUD._decrypt: each configured attribute present in the
item is base64-decoded and passed to KMS decrypt; a non-string stored value
makes b64decode raise TypeError, a malformed string raises Incorrect padding,
and a failing KMS call raises its own error — all of them out of the loop and
past the store-call try block, as in the source. -/
def decryptList (env : Env) : List (String × String) → Item → Except PyExn Item
  | [], it => .ok it
  | p :: rest, it =>
      match dictGet it p.1 with
      | some (.pstr s) =>
          match base64Decode s.data with
          | .ok bs =>
              match env.kmsDecrypt bs with
              | .ok v => decryptList env rest (dictSet it p.1 v)
              | .error e => .error e
          | .error e => .error e
      | some _ => .error ⟨"TypeError", "expected a string or buffer"⟩
      | none => decryptList env rest it

/-- CRUD._decrypt. -/
def decryptItem (cfg : CRUDConfig) (env : Env) (item : Item) : Except PyExn Item :=
  decryptList env cfg.encrypted_attributes item

/-- Python `str.lower` (ASCII, which covers operation names). -/
def strLower (s : String) : String := String.mk (s.data.map Char.toLower)

/-- A shallow rendering of `str(v)`, used only inside error message text. -/
def pyStr : PyVal → String
  | .pstr s => s
  | .pint n => toString n
  | .pbool b => if b then "True" else "False"
  | .pnone => "None"
  | _ => "<object>"

/-- Set the data field (`response.data = v`). -/
def setData (r : CRUDResponse) (v : PyVal) : CRUDResponse :=
  { r with data := some v }

/-- Set status to error with the given error type and message (the repeated
three-assignment pattern of the source). -/
def setTypedError (r : CRUDResponse) (ty msg : String) : CRUDResponse :=
  { r with status := "error", error_type := some ty, error_message := some msg }

/-! ### The operations -/

/-- The item CRUD.create writes: defaults filled, `modified_at` copied from
`created_at`, configured attributes encrypted.  Raises KeyError when
`created_at` is absent even after defaults handling, and propagates a KMS
encryption failure, as the source does. -/
def createPayload (cfg : CRUDConfig) (env : Env) (item : Item) : Except PyExn Item :=
  let it := handleDefaults cfg env item
  match dictGet it "created_at" with
  | some ca => encryptItem cfg env (dictSet it "modified_at" ca)
  | none => .error ⟨"KeyError", "created_at"⟩

/-- CRUD.create. -/
def create (cfg : CRUDConfig) (env : Env) (item : Item) : PyResult :=
  let (r, ok) := checkSupportedOp cfg "create" (newResponse cfg.debug)
  if ok then
    match createPayload cfg env item with
    | .error e => .raise e
    | .ok pay =>
        let (r, reqs) := callDDB env (.putItem pay) r
        let r := if r.status = "success" then setData r (.pdict pay) else r
        .ok (prepare r) reqs
  else .ok (prepare r) []

/-- The item CRUD.update writes: `modified_at` refreshed via the
`<timestamp>` token, configured attributes encrypted (which can raise). -/
def updatePayload (cfg : CRUDConfig) (env : Env) (item : Item) : Except PyExn Item :=
  encryptItem cfg env (dictSet item "modified_at" (tokensCheck env "<timestamp>"))

/-- CRUD.update. -/
def update (cfg : CRUDConfig) (env : Env) (item : Item) : PyResult :=
  let (r, ok) := checkSupportedOp cfg "update" (newResponse cfg.debug)
  if ok then
    match updatePayload cfg env item with
    | .error e => .raise e
    | .ok pay =>
        let (r, reqs) := callDDB env (.putItem pay) r
        let r := if r.status = "success" then setData r (.pdict pay) else r
        .ok (prepare r) reqs
  else .ok (prepare r) []

/-- CRUD.get. -/
def get (cfg : CRUDConfig) (env : Env) (id : PyVal) (decrypt : Bool) : PyResult :=
  let (r, ok) := checkSupportedOp cfg "get" (newResponse cfg.debug)
  if ok then
    if id = .pnone then
      .ok (prepare (setTypedError r "IDRequired" "Get requires an id")) []
    else
      let (r, reqs) := callDDB env (.getItem (.cons "id" id .nil) true) r
      if r.status = "success" then
        match r.raw_response with
        | some raw =>
            match raw.Item with
            | some item =>
                if decrypt then
                  match decryptItem cfg env item with
                  | .ok item2 => .ok (prepare (setData r (replaceDecimals (.pdict item2)))) reqs
                  | .error e => .raise e
                else .ok (prepare (setData r (replaceDecimals (.pdict item)))) reqs
            | none =>
                .ok (prepare (setTypedError r "NotFound"
                  ("Item with id (" ++ pyStr id ++ ") not found"))) reqs
        | none => .ok (prepare r) reqs
      else .ok (prepare r) reqs
  else .ok (prepare r) []

/-- CRUD.delete. -/
def delete (cfg : CRUDConfig) (env : Env) (id : PyVal) : PyResult :=
  let (r, ok) := checkSupportedOp cfg "delete" (newResponse cfg.debug)
  if ok then
    if id = .pnone then
      .ok (prepare (setTypedError r "IDRequired" "Delete requires an id")) []
    else
      let (r, reqs) := callDDB env (.deleteItem (.cons "id" id .nil)) r
      .ok (prepare r) reqs
  else .ok (prepare r) []

/-- CRUD.list. -/
def list (cfg : CRUDConfig) (env : Env) : PyResult :=
  let (r, ok) := checkSupportedOp cfg "list" (newResponse cfg.debug)
  if ok then
    let (r, reqs) := callDDB env .scan r
    if r.status = "success" then
      match r.raw_response with
      | some raw =>
          .ok (prepare (setData r
            (replaceDecimals (.plist (PyList.ofList (raw.Items.map PyVal.pdict)))))) reqs
      | none => .ok (prepare r) reqs
    else .ok (prepare r) reqs
  else .ok (prepare r) []

/-- Python `str.split` on a single separator character: always at least one
piece, one extra piece per occurrence of the separator. -/
def splitEq : List Char → List (List Char)
  | [] => [[]]
  | c :: rest =>
      if c = '=' then [] :: splitEq rest
      else
        match splitEq rest with
        | [] => [[c]]
        | p :: ps => (c :: p) :: ps

/-- CRUD.query.  A query string with two or more `=` makes the two-variable
unpacking of `split` raise ValueError, exactly as in CPython. -/
def query (cfg : CRUDConfig) (env : Env) (qs : String) : PyResult :=
  let (r, ok) := checkSupportedOp cfg "query" (newResponse cfg.debug)
  if ok then
    if qs.data.contains '=' = false then
      .ok (prepare (setTypedError r "InvalidQuery" "Only the = operation is supported")) []
    else
      match splitEq qs.data with
      | [k, v] =>
          let key := String.mk k
          match alGet cfg.indexes key with
          | none =>
              .ok (prepare (setTypedError r "InvalidQuery"
                ("Attribute " ++ key ++ " is not indexed"))) []
          | some idxName =>
              let (r, reqs) := callDDB env (.queryIdx key (String.mk v) idxName) r
              if r.status = "success" then
                match r.raw_response with
                | some raw =>
                    .ok (prepare (setData r
                      (replaceDecimals (.plist (PyList.ofList (raw.Items.map PyVal.pdict)))))) reqs
                | none => .ok (prepare r) reqs
              else .ok (prepare r) reqs
      | _ => .raise ⟨"ValueError", "too many values to unpack"⟩
  else .ok (prepare r) []

/-- CRUD.handler: lowercases the operation name, rejects names outside the
allow-list, then dispatches.  `item["id"]` on the get and delete paths raises
KeyError when the key is absent and TypeError on non-dict payloads; the query
path re-runs the membership test of `query` on dict payloads (Python `in` on
a dict tests keys) and raises on other payload types, as CPython does. -/
def handler (cfg : CRUDConfig) (env : Env) (item : PyVal) (operation : String) : PyResult :=
  let op := strLower operation
  let r := newResponse cfg.debug
  let (r, _) := checkSupportedOp cfg op r
  if r.status = "success" then
    if op = "list" then list cfg env
    else if op = "get" then
      match item with
      | .pdict d =>
          match dictGet d "id" with
          | some idv => get cfg env idv false
          | none => .raise ⟨"KeyError", "id"⟩
      | _ => .raise ⟨"TypeError", "item is not subscriptable"⟩
    else if op = "create" then
      match item with
      | .pdict d => create cfg env d
      | _ => .raise ⟨"AttributeError", "object has no attribute keys"⟩
    else if op = "update" then
      match item with
      | .pdict d => update cfg env d
      | _ => .raise ⟨"AttributeError", "object has no attribute keys"⟩
    else if op = "delete" then
      match item with
      | .pdict d =>
          match dictGet d "id" with
          | some idv => delete cfg env idv
          | none => .raise ⟨"KeyError", "id"⟩
      | _ => .raise ⟨"TypeError", "item is not subscriptable"⟩
    else if op = "query" then
      match item with
      | .pstr s => query cfg env s
      | .pdict d =>
          let r2 := newResponse cfg.debug
          let (r2, ok2) := checkSupportedOp cfg "query" r2
          if ok2 then
            if dictHas d "=" then .raise ⟨"AttributeError", "dict object has no attribute split"⟩
            else .ok (prepare (setTypedError r2 "InvalidQuery" "Only the = operation is supported")) []
          else .ok (prepare r2) []
      | _ => .raise ⟨"TypeError", "argument is not iterable"⟩
    else .ok r []
  else .ok r []

/-! ### Initialization -/

/-- What CRUD.__init__ reads off the DynamoDB table: the key schema attribute
names and, for each global secondary index, its name and key schema attribute
names. -/
structure TableDesc where
  key_schema : List String
  gsis : List (String × List String)

/-- CRUD._analyze_table, GSI part: every GSI with a single-attribute key
schema contributes a mapping from that attribute to the index name. -/
def analyzeIndexes (gsis : List (String × List String)) : List (String × String) :=
  gsis.foldl
    (fun idx g => match g.2 with
      | [h] => alSet idx h g.1
      | _ => idx)
    []

/-- CRUD.__init__ (the behaviourally relevant part): installs the defaults
(always overriding `id` and `created_at` with the generator tokens), the
supported operations, the encrypted attributes, and the index map; fails as
the source does when the key schema is not the single hash key `id`. -/
def CRUD_init (table : TableDesc) (userDefaults : Option (List (String × String)))
    (userOps : Option (List String)) (encAttrs : Option (List (String × String)))
    (debug : Bool) : Except PyExn CRUDConfig :=
  let defaults := alSet (alSet (userDefaults.getD []) "id" "<uuid>") "created_at" "<timestamp>"
  if table.key_schema.length ≠ 1 then
    .error ⟨"CruddyKeySchemaException", "cruddy does not support RANGE keys"⟩
  else if table.key_schema.headD "" ≠ "id" then
    .error ⟨"CruddyKeyNameException", "cruddy expects the HASH to be id"⟩
  else
    .ok ⟨defaults, userOps.getD SupportedOps, encAttrs.getD [], analyzeIndexes table.gsis, debug⟩

/-! ### Basic dictionary lemmas -/

theorem dictGet_dictSet_self : ∀ (d : PyDict) (k : String) (v : PyVal),
    dictGet (dictSet d k v) k = some v
  | .nil, k, v => by simp [dictSet, dictGet]
  | .cons k1 v1 rest, k, v => by
      by_cases h : k1 = k <;>
        simp [dictSet, dictGet, h, dictGet_dictSet_self rest k v]

theorem dictGet_dictSet_ne : ∀ (d : PyDict) (k k2 : String) (v : PyVal), k ≠ k2 →
    dictGet (dictSet d k v) k2 = dictGet d k2
  | .nil, k, k2, v, h => by simp [dictSet, dictGet, h]
  | .cons k1 v1 rest, k, k2, v, h => by
      by_cases h1 : k1 = k
      · subst h1; simp [dictSet, dictGet, h]
      · simp [dictSet, dictGet, h1, dictGet_dictSet_ne rest k k2 v h]

theorem alGet_alSet_self {α : Type} (d : List (String × α)) (k : String) (v : α) :
    alGet (alSet d k v) k = some v := by
  induction d with
  | nil => simp [alSet, alGet]
  | cons kv rest ih =>
      by_cases h : kv.1 = k <;> simp [alSet, alGet, h, ih]

theorem alGet_alSet_ne {α : Type} (d : List (String × α)) (k k2 : String) (v : α) (h : k ≠ k2) :
    alGet (alSet d k v) k2 = alGet d k2 := by
  induction d with
  | nil => simp [alSet, alGet, h]
  | cons kv rest ih =>
      by_cases h1 : kv.1 = k
      · simp [alSet, alGet, h1, h]
      · simp [alSet, alGet, h1, ih]

/-! ### handleDefaults lemmas -/

theorem foldlDefaults_preserves (env : Env) (k : String) (v : PyVal) :
    ∀ (ds : List (String × String)) (item : Item), dictGet item k = some v →
      dictGet (ds.foldl
        (fun it kv => if dictHas it kv.1 then it else dictSet it kv.1 (tokensCheck env kv.2))
        item) k = some v := by
  intro ds
  induction ds with
  | nil => intro item h; simpa using h
  | cons kv rest ih =>
      intro item h
      simp only [List.foldl_cons]
      by_cases hh : dictHas item kv.1
      · rw [if_pos hh]; exact ih item h
      · rw [if_neg hh]
        apply ih
        have hne : kv.1 ≠ k := by
          intro he; subst he
          simp [dictHas, h] at hh
        rw [dictGet_dictSet_ne _ _ _ _ hne]; exact h

theorem handleDefaults_preserves (cfg : CRUDConfig) (env : Env) (item : Item)
    (k : String) (v : PyVal) (h : dictGet item k = some v) :
    dictGet (handleDefaults cfg env item) k = some v :=
  foldlDefaults_preserves env k v cfg.defaults item h

theorem foldlDefaults_fills (env : Env) (k : String) (tok : String) :
    ∀ (ds : List (String × String)) (item : Item), dictGet item k = none →
      alGet ds k = some tok →
      dictGet (ds.foldl
        (fun it kv => if dictHas it kv.1 then it else dictSet it kv.1 (tokensCheck env kv.2))
        item) k = some (tokensCheck env tok) := by
  intro ds
  induction ds with
  | nil => intro item _ h2; simp [alGet] at h2
  | cons kv rest ih =>
      intro item h1 h2
      simp only [List.foldl_cons]
      by_cases hk : kv.1 = k
      · subst hk
        simp [alGet] at h2
        subst h2
        rw [if_neg (by simp [dictHas, h1])]
        exact foldlDefaults_preserves env _ _ rest _ (dictGet_dictSet_self item _ _)
      · have h2r : alGet rest k = some tok := by simpa [alGet, hk] using h2
        by_cases hh : dictHas item kv.1
        · rw [if_pos hh]; exact ih item h1 h2r
        · rw [if_neg hh]
          apply ih _ _ h2r
          rw [dictGet_dictSet_ne _ _ _ _ hk]; exact h1

theorem handleDefaults_fills (cfg : CRUDConfig) (env : Env) (item : Item)
    (k tok : String) (h1 : dictGet item k = none) (h2 : alGet cfg.defaults k = some tok) :
    dictGet (handleDefaults cfg env item) k = some (tokensCheck env tok) :=
  foldlDefaults_fills env k tok cfg.defaults item h1 h2

theorem encryptList_skips (env : Env) (k : String) :
    ∀ (ps : List (String × String)) (item pay : Item), encryptList env ps item = .ok pay →
      (∀ p ∈ ps, p.1 ≠ k) → dictGet pay k = dictGet item k := by
  intro ps
  induction ps with
  | nil =>
      intro item pay hok _
      simp only [encryptList] at hok
      rw [← Except.ok.inj hok]
  | cons p rest ih =>
      intro item pay hok h
      have hp : p.1 ≠ k := h p (List.mem_cons_self p rest)
      have hr : ∀ q ∈ rest, q.1 ≠ k := fun q hq => h q (List.mem_cons_of_mem p hq)
      simp only [encryptList] at hok
      cases hv : dictGet item p.1 with
      | none =>
          rw [hv] at hok
          simp only [] at hok
          exact ih _ _ hok hr
      | some v =>
          rw [hv] at hok
          simp only [] at hok
          cases he : env.kmsEncrypt p.2 v with
          | ok blob =>
              rw [he] at hok
              simp only [] at hok
              rw [ih _ _ hok hr, dictGet_dictSet_ne _ _ _ _ hp]
          | error e =>
              rw [he] at hok
              simp only [] at hok
              exact Except.noConfusion hok

theorem encryptItem_skips (cfg : CRUDConfig) (env : Env) (item pay : Item) (k : String)
    (hok : encryptItem cfg env item = .ok pay)
    (h : ∀ p ∈ cfg.encrypted_attributes, p.1 ≠ k) :
    dictGet pay k = dictGet item k :=
  encryptList_skips env k cfg.encrypted_attributes item pay hok h

theorem encryptList_empty (env : Env) (item : Item) :
    encryptList env [] item = .ok item := rfl

theorem decryptList_empty (env : Env) (item : Item) :
    decryptList env [] item = .ok item := rfl

/-! ### Token evaluation -/

theorem tokensCheck_uuid (env : Env) : tokensCheck env "<uuid>" = .pstr env.uuid := rfl

theorem tokensCheck_timestamp (env : Env) : tokensCheck env "<timestamp>" = .pint env.timestamp := rfl

/-! ### prepare lemmas -/

theorem prepare_status (r : CRUDResponse) : (prepare r).status = r.status := by
  unfold prepare
  split <;> (try rfl)
  split <;> (try rfl)
  split <;> rfl

theorem prepare_data (r : CRUDResponse) : (prepare r).data = r.data := by
  unfold prepare
  split <;> (try rfl)
  split <;> (try rfl)
  split <;> rfl

theorem prepare_error_type (r : CRUDResponse) : (prepare r).error_type = r.error_type := by
  unfold prepare
  split <;> (try rfl)
  split <;> (try rfl)
  split <;> rfl

theorem prepare_error_code (r : CRUDResponse) : (prepare r).error_code = r.error_code := by
  unfold prepare
  split <;> (try rfl)
  split <;> (try rfl)
  split <;> rfl

theorem prepare_error_message (r : CRUDResponse) : (prepare r).error_message = r.error_message := by
  unfold prepare
  split <;> (try rfl)
  split <;> (try rfl)
  split <;> rfl

/-! ### replaceDecimals lemmas -/

mutual
theorem noDecimal_replaceDecimals : ∀ v : PyVal, noDecimal (replaceDecimals v) = true
  | .pstr _ => rfl
  | .pint _ => rfl
  | .pfloat _ => rfl
  | .pbool _ => rfl
  | .pnone => rfl
  | .pdec q => by
      by_cases h : q.den = 1 <;> simp [replaceDecimals, noDecimal, h]
  | .plist xs => by
      simp [replaceDecimals, noDecimal, noDecimal_replaceDecimalsList xs]
  | .pdict d => by
      simp [replaceDecimals, noDecimal, noDecimal_replaceDecimalsDict d]
theorem noDecimal_replaceDecimalsList : ∀ xs : PyList,
    noDecimalList (replaceDecimalsList xs) = true
  | .nil => rfl
  | .cons x xs => by
      simp [replaceDecimalsList, noDecimalList, noDecimal_replaceDecimals x,
        noDecimal_replaceDecimalsList xs]
theorem noDecimal_replaceDecimalsDict : ∀ d : PyDict,
    noDecimalDict (replaceDecimalsDict d) = true
  | .nil => rfl
  | .cons k v rest => by
      simp [replaceDecimalsDict, noDecimalDict, noDecimal_replaceDecimals v,
        noDecimal_replaceDecimalsDict rest]
end

mutual
theorem replaceDecimals_id : ∀ v : PyVal, noDecimal v = true → replaceDecimals v = v
  | .pstr _, _ => rfl
  | .pint _, _ => rfl
  | .pfloat _, _ => rfl
  | .pbool _, _ => rfl
  | .pnone, _ => rfl
  | .pdec _, h => by simp [noDecimal] at h
  | .plist xs, h => by
      simp only [noDecimal] at h
      simp [replaceDecimals, replaceDecimalsList_id xs h]
  | .pdict d, h => by
      simp only [noDecimal] at h
      simp [replaceDecimals, replaceDecimalsDict_id d h]
theorem replaceDecimalsList_id : ∀ xs : PyList, noDecimalList xs = true →
    replaceDecimalsList xs = xs
  | .nil, _ => rfl
  | .cons x xs, h => by
      simp only [noDecimalList, Bool.and_eq_true] at h
      simp [replaceDecimalsList, replaceDecimals_id x h.1, replaceDecimalsList_id xs h.2]
theorem replaceDecimalsDict_id : ∀ d : PyDict, noDecimalDict d = true →
    replaceDecimalsDict d = d
  | .nil, _ => rfl
  | .cons k v rest, h => by
      simp only [noDecimalDict, Bool.and_eq_true] at h
      simp [replaceDecimalsDict, replaceDecimals_id v h.1, replaceDecimalsDict_id rest h.2]
end

theorem dictGet_replaceDecimalsDict : ∀ (d : PyDict) (k : String),
    dictGet (replaceDecimalsDict d) k = (dictGet d k).map replaceDecimals
  | .nil, k => rfl
  | .cons k1 v rest, k => by
      by_cases h : k1 = k <;>
        simp [replaceDecimalsDict, dictGet, h, dictGet_replaceDecimalsDict rest k]

/-! ### base64 lemmas -/

theorem b64Index_b64Char : ∀ n < 64, b64Index (b64Char n) = some n := by decide

theorem b64Char_ne_pad : ∀ n < 64, b64Char n ≠ '=' := by decide

theorem a2bBase64_encode : ∀ bs : List Nat, (∀ b ∈ bs, b < 256) →
    ∀ out, a2bBase64 (base64Encode bs) out [] = .ok (out ++ bs) := by
  intro bs
  induction bs using base64Encode.induct with
  | case1 => intro _ out; simp [base64Encode, a2bBase64]
  | case2 a =>
      intro h out
      have ha : a < 256 := h a (by simp)
      have h1 : a / 4 < 64 := by omega
      have h2 : a % 4 * 16 < 64 := by omega
      simp only [base64Encode, a2bBase64]
      rw [if_neg (b64Char_ne_pad _ h1), b64Index_b64Char _ h1]
      simp only [a2bBase64]
      rw [if_neg (b64Char_ne_pad _ h2), b64Index_b64Char _ h2]
      simp only [a2bBase64, List.filter, b64Relevant]
      norm_num
      omega
  | case3 a b =>
      intro h out
      have ha : a < 256 := h a (by simp)
      have hb : b < 256 := h b (by simp)
      have h1 : a / 4 < 64 := by omega
      have h2 : a % 4 * 16 + b / 16 < 64 := by omega
      have h3 : b % 16 * 4 < 64 := by omega
      simp only [base64Encode, a2bBase64]
      rw [if_neg (b64Char_ne_pad _ h1), b64Index_b64Char _ h1]
      simp only [a2bBase64]
      rw [if_neg (b64Char_ne_pad _ h2), b64Index_b64Char _ h2]
      simp only [a2bBase64]
      rw [if_neg (b64Char_ne_pad _ h3), b64Index_b64Char _ h3]
      simp only [a2bBase64]
      norm_num
      constructor <;> omega
  | case4 a b c rest ih =>
      intro h out
      have ha : a < 256 := h a (by simp)
      have hb : b < 256 := h b (by simp)
      have hc : c < 256 := h c (by simp)
      have hrest : ∀ x ∈ rest, x < 256 := fun x hx => h x (by simp [hx])
      have h1 : a / 4 < 64 := by omega
      have h2 : a % 4 * 16 + b / 16 < 64 := by omega
      have h3 : b % 16 * 4 + c / 64 < 64 := by omega
      have h4 : c % 64 < 64 := by omega
      simp only [base64Encode, a2bBase64]
      rw [if_neg (b64Char_ne_pad _ h1), b64Index_b64Char _ h1]
      simp only [a2bBase64]
      rw [if_neg (b64Char_ne_pad _ h2), b64Index_b64Char _ h2]
      simp only [a2bBase64]
      rw [if_neg (b64Char_ne_pad _ h3), b64Index_b64Char _ h3]
      simp only [a2bBase64]
      rw [if_neg (b64Char_ne_pad _ h4), b64Index_b64Char _ h4]
      simp only [a2bBase64]
      rw [ih hrest]
      have e1 : a / 4 * 4 + (a % 4 * 16 + b / 16) / 16 = a := by omega
      have e2 : (a % 4 * 16 + b / 16) % 16 * 16 + (b % 16 * 4 + c / 64) / 4 = b := by omega
      have e3 : (b % 16 * 4 + c / 64) % 4 * 64 + c % 64 = c := by omega
      rw [e1, e2, e3]
      simp

theorem base64Decode_encode (bs : List Nat) (h : ∀ b ∈ bs, b < 256) :
    base64Decode (base64Encode bs) = .ok bs := by
  simpa using a2bBase64_encode bs h []

/-! ### splitEq lemmas -/

theorem splitEq_ne_nil : ∀ cs : List Char, splitEq cs ≠ []
  | [] => by simp [splitEq]
  | c :: rest => by
      by_cases h : c = '='
      · simp [splitEq, h]
      · simp only [splitEq, if_neg h]
        cases hs : splitEq rest <;> simp

theorem contains_iff_splitEq : ∀ cs : List Char,
    cs.contains '=' = true ↔ 2 ≤ (splitEq cs).length
  | [] => by simp [splitEq]
  | c :: rest => by
      by_cases h : c = '='
      · subst h
        have h1 : 1 ≤ (splitEq rest).length :=
          List.length_pos.mpr (splitEq_ne_nil rest)
        simp [splitEq, List.contains_cons]
        omega
      · have ih := contains_iff_splitEq rest
        simp only [splitEq, if_neg h]
        cases hs : splitEq rest with
        | nil => exact absurd hs (splitEq_ne_nil rest)
        | cons p ps =>
            rw [hs] at ih
            simp only [List.contains_cons, List.length_cons] at *
            constructor
            · intro hor
              rcases Bool.or_eq_true _ _ |>.mp hor with h1 | h2
              · exact absurd (Eq.symm (by simpa using h1)) h
              · simpa using ih.mp h2
            · intro hlen
              apply Bool.or_eq_true _ _ |>.mpr
              right
              exact ih.mpr (by simpa using hlen)

/-! ### The response envelope invariant -/

/-- The envelope invariant of claim C9: status is success or error, an error
envelope carries no data, and a success envelope carries no error fields. -/
def envelopeInv (r : CRUDResponse) : Prop :=
  (r.status = "success" ∨ r.status = "error") ∧
  (r.status = "error" → r.data = none) ∧
  (r.status = "success" → r.error_type = none ∧ r.error_code = none ∧ r.error_message = none)

theorem envelopeInv_prepare (r : CRUDResponse) : envelopeInv (prepare r) ↔ envelopeInv r := by
  unfold envelopeInv
  rw [prepare_status, prepare_data, prepare_error_type, prepare_error_code,
    prepare_error_message]

/-- A benign environment: every store call succeeds with an empty result. -/
def env0 : Env :=
  ⟨fun _ => .ok ⟨none, [], .pnone⟩, fun _ _ => .ok [], fun _ => .ok .pnone, "uuid-1", 1000⟩

/-- The configuration produced by initialization with all defaults: no user
defaults, the full operation list, no encrypted attributes, no indexes. -/
def cfg0 : CRUDConfig :=
  ⟨[("id", "<uuid>"), ("created_at", "<timestamp>")], SupportedOps, [], [], false⟩

/-- The error type recorded in the envelope when a store call fails (the
ClientError `Type` field, or the exception class name). -/
def outcomeType : DDBOutcome → Option String
  | .ok _ => none
  | .clientError _ _ t => t
  | .exn cls _ => some cls

/-- A configuration encrypting the attribute "secret" under KMS key "k1". -/
def cfgEnc : CRUDConfig :=
  ⟨[("id", "<uuid>"), ("created_at", "<timestamp>")], SupportedOps, [("secret", "k1")], [], false⟩

/-- Claim C3: for every call to get, a `None` id yields an IDRequired error
envelope with no store request issued, and a non-null id whose strongly
consistent point read returns no item yields a NotFound error envelope. -/
theorem C3_get_id_required_and_not_found (cfg : CRUDConfig) (env : Env) (idv : PyVal)
    (dec : Bool) (raw : RawResponse) (hop : "get" ∈ cfg.supported_ops) :
    (idv = .pnone → ∃ r, get cfg env idv dec = .ok r [] ∧
      r.status = "error" ∧ r.error_type = some "IDRequired") ∧
    (idv ≠ .pnone → env.ddb (.getItem (.cons "id" idv .nil) true) = .ok raw →
      raw.Item = none →
      ∃ r, get cfg env idv dec = .ok r [.getItem (.cons "id" idv .nil) true] ∧
        r.status = "error" ∧ r.error_type = some "NotFound") := by
  constructor
  · intro hid
    subst hid
    unfold get checkSupportedOp
    simp only [if_pos hop, if_pos rfl]
    refine ⟨_, rfl, ?_, ?_⟩
    · rw [prepare_status]; rfl
    · rw [prepare_error_type]; rfl
  · intro hid hddb hitem
    unfold get checkSupportedOp
    simp only [if_pos hop, if_neg hid, callDDB, hddb, hitem, newResponse]
    refine ⟨_, rfl, ?_, ?_⟩
    · rw [prepare_status]; rfl
    · rw [prepare_error_type]; rfl

/-- Claim C3 witness: concrete instantiation at a benign store with an empty
table. -/
theorem C3_witness_concrete :
    (∃ r, get cfg0 env0 .pnone false = .ok r [] ∧
      r.status = "error" ∧ r.error_type = some "IDRequired") ∧
    (∃ r, get cfg0 env0 (.pstr "x") false =
        .ok r [.getItem (.cons "id" (.pstr "x") .nil) true] ∧
      r.status = "error" ∧ r.error_type = some "NotFound") :=
  ⟨(C3_get_id_required_and_not_found cfg0 env0 .pnone false ⟨none, [], .pnone⟩
      (by decide)).1 rfl,
   (C3_get_id_required_and_not_found cfg0 env0 (.pstr "x") false ⟨none, [], .pnone⟩
      (by decide)).2 (by simp) rfl rfl⟩

/-- Claim C5 (amended): each of the six operations, invoked directly while its
name is outside the allow-list, returns an UnsupportedOperation error envelope
and issues no store request; the dispatcher does the same whenever the
lowercased operation name is outside the allow-list.  (The original claim is
false for the dispatcher on names such as "LIST" whose lowercase form is
allow-listed: the dispatcher lowercases before checking.) -/
theorem C5_unsupported_op_rejected_amended (cfg : CRUDConfig) (env : Env) (item : Item)
    (pv idv : PyVal) (dec : Bool) (qs opname : String) :
    ("create" ∉ cfg.supported_ops → ∃ r, create cfg env item = .ok r [] ∧
       r.status = "error" ∧ r.error_type = some "UnsupportedOperation") ∧
    ("update" ∉ cfg.supported_ops → ∃ r, update cfg env item = .ok r [] ∧
       r.status = "error" ∧ r.error_type = some "UnsupportedOperation") ∧
    ("get" ∉ cfg.supported_ops → ∃ r, get cfg env idv dec = .ok r [] ∧
       r.status = "error" ∧ r.error_type = some "UnsupportedOperation") ∧
    ("delete" ∉ cfg.supported_ops → ∃ r, delete cfg env idv = .ok r [] ∧
       r.status = "error" ∧ r.error_type = some "UnsupportedOperation") ∧
    ("list" ∉ cfg.supported_ops → ∃ r, list cfg env = .ok r [] ∧
       r.status = "error" ∧ r.error_type = some "UnsupportedOperation") ∧
    ("query" ∉ cfg.supported_ops → ∃ r, query cfg env qs = .ok r [] ∧
       r.status = "error" ∧ r.error_type = some "UnsupportedOperation") ∧
    (strLower opname ∉ cfg.supported_ops → ∃ r, handler cfg env pv opname = .ok r [] ∧
       r.status = "error" ∧ r.error_type = some "UnsupportedOperation") := by
  refine ⟨?_, ?_, ?_, ?_, ?_, ?_, ?_⟩
  · intro hm
    unfold create checkSupportedOp
    simp only [if_neg hm]
    exact ⟨_, rfl, rfl, rfl⟩
  · intro hm
    unfold update checkSupportedOp
    simp only [if_neg hm]
    exact ⟨_, rfl, rfl, rfl⟩
  · intro hm
    unfold get checkSupportedOp
    simp only [if_neg hm]
    exact ⟨_, rfl, rfl, rfl⟩
  · intro hm
    unfold delete checkSupportedOp
    simp only [if_neg hm]
    exact ⟨_, rfl, rfl, rfl⟩
  · intro hm
    unfold list checkSupportedOp
    simp only [if_neg hm]
    exact ⟨_, rfl, rfl, rfl⟩
  · intro hm
    unfold query checkSupportedOp
    simp only [if_neg hm]
    exact ⟨_, rfl, rfl, rfl⟩
  · intro hm
    unfold handler checkSupportedOp
    simp only [if_neg hm]
    exact ⟨_, rfl, rfl, rfl⟩

/-- Claim C5 witness: with an allow-list containing only get, a direct create
and a dispatched "CREATE" are both rejected without store traffic. -/
theorem C5_witness_concrete :
    (∃ r, create ⟨[("id", "<uuid>"), ("created_at", "<timestamp>")], ["get"], [], [], false⟩
        env0 .nil = .ok r [] ∧
      r.status = "error" ∧ r.error_type = some "UnsupportedOperation") ∧
    (∃ r, handler ⟨[("id", "<uuid>"), ("created_at", "<timestamp>")], ["get"], [], [], false⟩
        env0 (.pdict .nil) "CREATE" = .ok r [] ∧
      r.status = "error" ∧ r.error_type = some "UnsupportedOperation") :=
  ⟨(C5_unsupported_op_rejected_amended
      ⟨[("id", "<uuid>"), ("created_at", "<timestamp>")], ["get"], [], [], false⟩
      env0 .nil .pnone .pnone false "" "CREATE").1 (by decide),
   (C5_unsupported_op_rejected_amended
      ⟨[("id", "<uuid>"), ("created_at", "<timestamp>")], ["get"], [], [], false⟩
      env0 .nil (.pdict .nil) .pnone false "" "CREATE").2.2.2.2.2.2 (by decide)⟩

/-- Claim C5 counterexample: the operation name "LIST" is not in the default
allow-list, yet dispatching it performs a scan and returns a success envelope,
because the dispatcher lowercases the name before the allow-list check. -/
theorem C5_counterexample_uppercase_dispatch :
    "LIST" ∉ cfg0.supported_ops ∧
    handler cfg0 env0 (.pdict .nil) "LIST" =
      .ok ⟨false, "success", some (.plist .nil), none, none, none, none, some .pnone⟩
        [.scan] :=
  ⟨by decide, rfl⟩

/-- Claim C6: decimal-to-native conversion recurses through nested mappings
and sequences, turns every whole-number Decimal into an integer and every
fractional Decimal into a float, leaves non-Decimal values unchanged, and its
output never contains a Decimal. -/
theorem C6_replace_decimals_conversion (v x : PyVal) (q : Rat) (xs : PyList)
    (d : PyDict) (k : String) :
    noDecimal (replaceDecimals v) = true ∧
    (noDecimal v = true → replaceDecimals v = v) ∧
    replaceDecimals (.pdec q) = (if q.den = 1 then .pint q.num else .pfloat q) ∧
    replaceDecimals (.plist xs) = .plist (replaceDecimalsList xs) ∧
    replaceDecimals (.pdict d) = .pdict (replaceDecimalsDict d) ∧
    replaceDecimalsList (.cons x xs) = .cons (replaceDecimals x) (replaceDecimalsList xs) ∧
    replaceDecimalsDict (.cons k x d) = .cons k (replaceDecimals x) (replaceDecimalsDict d) :=
  ⟨noDecimal_replaceDecimals v, replaceDecimals_id v, rfl, rfl, rfl, rfl, rfl⟩

/-- Claim C6 witness: a nested dict/list mixing a whole Decimal, a fractional
Decimal and non-Decimal values converts as described, and a Decimal-free value
is left unchanged. -/
theorem C6_witness_concrete :
    noDecimal (replaceDecimals (.pdict (.cons "a"
      (.plist (.cons (.pdec 2) (.cons (.pdec (mkRat 5 2)) (.cons (.pstr "s") .nil))))
      .nil))) = true ∧
    replaceDecimals (.pdict (.cons "b" (.pint 3) .nil)) = .pdict (.cons "b" (.pint 3) .nil) :=
  ⟨(C6_replace_decimals_conversion (.pdict (.cons "a"
      (.plist (.cons (.pdec 2) (.cons (.pdec (mkRat 5 2)) (.cons (.pstr "s") .nil))))
      .nil)) .pnone 1 .nil .nil "k").1,
   (C6_replace_decimals_conversion (.pdict (.cons "b" (.pint 3) .nil))
      .pnone 1 .nil .nil "k").2.1 (by decide)⟩

/-- Claim C8: update always rewrites modified_at to the current timestamp
before writing, so under a non-decreasing clock the stored modified_at after
the update is at least its value before. -/
theorem C8_update_advances_modified_at (cfg : CRUDConfig) (env : Env) (item pay : Item)
    (t0 : Int) (hop : "update" ∈ cfg.supported_ops)
    (hold : dictGet item "modified_at" = some (.pint t0))
    (henc : ∀ p ∈ cfg.encrypted_attributes, p.1 ≠ "modified_at")
    (hpay : updatePayload cfg env item = .ok pay)
    (hclock : t0 ≤ env.timestamp) :
    ∃ r, update cfg env item = .ok r [.putItem pay] ∧
      dictGet pay "modified_at" = some (.pint env.timestamp) ∧
      t0 ≤ env.timestamp := by
  have hpay1 := hpay
  simp only [updatePayload] at hpay1
  have hmod : dictGet pay "modified_at" = some (.pint env.timestamp) := by
    rw [encryptItem_skips cfg env _ pay "modified_at" hpay1 henc, dictGet_dictSet_self,
      tokensCheck_timestamp]
  unfold update checkSupportedOp
  simp only [if_pos hop, hpay, callDDB]
  cases ho : env.ddb (.putItem pay) with
  | ok raw => exact ⟨_, rfl, hmod, hclock⟩
  | clientError m c t => exact ⟨_, rfl, hmod, hclock⟩
  | exn cls msg => exact ⟨_, rfl, hmod, hclock⟩

/-- Claim C8 witness: updating an item whose modified_at is 500 under a clock
at 1000 stores modified_at 1000. -/
theorem C8_witness_concrete :
    ∃ r, update cfg0 env0 (.cons "modified_at" (.pint 500) .nil) =
        .ok r [.putItem (.cons "modified_at" (.pint 1000) .nil)] ∧
      dictGet (.cons "modified_at" (.pint 1000) .nil) "modified_at" =
        some (.pint env0.timestamp) ∧
      (500 : Int) ≤ env0.timestamp :=
  C8_update_advances_modified_at cfg0 env0 (.cons "modified_at" (.pint 500) .nil)
    (.cons "modified_at" (.pint 1000) .nil) 500
    (by decide) rfl (by simp [cfg0]) rfl (by decide)

/-- Claim C10: whatever defaults the caller supplies, initialization maps id
to the uuid token and created_at to the timestamp token, so default handling
always generates a fresh id and a current created_at for items missing them.
(No operation writes the defaults: in this embedding every operation takes
the configuration read-only, mirroring the source, which never assigns
self.defaults outside __init__.) -/
theorem C10_defaults_always_tokenized (table : TableDesc)
    (ud : Option (List (String × String))) (uo : Option (List String))
    (ea : Option (List (String × String))) (dbg : Bool) (cfg : CRUDConfig)
    (hinit : CRUD_init table ud uo ea dbg = .ok cfg) :
    alGet cfg.defaults "id" = some "<uuid>" ∧
    alGet cfg.defaults "created_at" = some "<timestamp>" ∧
    ∀ (env : Env) (item : Item),
      (dictGet item "id" = none →
        dictGet (handleDefaults cfg env item) "id" = some (.pstr env.uuid)) ∧
      (dictGet item "created_at" = none →
        dictGet (handleDefaults cfg env item) "created_at" = some (.pint env.timestamp)) := by
  unfold CRUD_init at hinit
  by_cases h1 : table.key_schema.length ≠ 1
  · rw [if_pos h1] at hinit; simp at hinit
  · rw [if_neg h1] at hinit
    by_cases h2 : table.key_schema.headD "" ≠ "id"
    · rw [if_pos h2] at hinit; simp at hinit
    · rw [if_neg h2] at hinit
      cases Except.ok.inj hinit
      have hid : alGet (alSet (alSet (ud.getD []) "id" "<uuid>") "created_at" "<timestamp>")
          "id" = some "<uuid>" := by
        rw [alGet_alSet_ne _ _ _ _ (by decide), alGet_alSet_self]
      have hca : alGet (alSet (alSet (ud.getD []) "id" "<uuid>") "created_at" "<timestamp>")
          "created_at" = some "<timestamp>" := by
        rw [alGet_alSet_self]
      refine ⟨hid, hca, ?_⟩
      intro env item
      constructor
      · intro hnone
        rw [handleDefaults_fills _ env item "id" "<uuid>" hnone hid, tokensCheck_uuid]
      · intro hnone
        rw [handleDefaults_fills _ env item "created_at" "<timestamp>" hnone hca,
          tokensCheck_timestamp]

/-- Claim C10 witness: initialization with user defaults that try to override
id and created_at still installs the generator tokens, and default handling
generates the fresh values. -/
theorem C10_witness_concrete :
    alGet ((⟨[("id", "<uuid>"), ("created_at", "<timestamp>"), ("author", "anon")],
        SupportedOps, [], [], false⟩ : CRUDConfig)).defaults "id" = some "<uuid>" ∧
    dictGet (handleDefaults ⟨[("id", "<uuid>"), ("created_at", "<timestamp>"),
        ("author", "anon")], SupportedOps, [], [], false⟩ env0 .nil) "id" =
      some (.pstr "uuid-1") := by
  have h := C10_defaults_always_tokenized ⟨["id"], []⟩
    (some [("id", "boom"), ("created_at", "never"), ("author", "anon")]) none none false
    ⟨[("id", "<uuid>"), ("created_at", "<timestamp>"), ("author", "anon")],
      SupportedOps, [], [], false⟩ rfl
  exact ⟨h.1, (h.2.2 env0 .nil).1 rfl⟩

/-- Claim C1: creating an item without an id returns (on a successful write)
the item with the freshly generated uuid filled in as id and with modified_at
equal to created_at.  Uniqueness of the id is the uuid4 generator property,
carried by the environment.  The hypotheses delimit the claim frame: create
is allow-listed, the defaults map id to the uuid token (always true after
initialization), the configured encrypted attributes do not touch the three
managed fields, and the store accepts the write. -/
theorem C1_create_fills_fresh_id_copies_timestamp (cfg : CRUDConfig) (env : Env)
    (item pay : Item) (raw : RawResponse)
    (hop : "create" ∈ cfg.supported_ops)
    (hnoid : dictGet item "id" = none)
    (hdef : alGet cfg.defaults "id" = some "<uuid>")
    (henc : ∀ p ∈ cfg.encrypted_attributes,
      p.1 ≠ "id" ∧ p.1 ≠ "created_at" ∧ p.1 ≠ "modified_at")
    (hpay : createPayload cfg env item = .ok pay)
    (hput : env.ddb (.putItem pay) = .ok raw) :
    ∃ r, create cfg env item = .ok r [.putItem pay] ∧
      r.status = "success" ∧ r.data = some (.pdict pay) ∧
      dictGet pay "id" = some (.pstr env.uuid) ∧
      dictGet pay "modified_at" = dictGet pay "created_at" ∧
      (dictGet pay "modified_at").isSome := by
  obtain ⟨ca, hca, hpayeq⟩ : ∃ ca,
      dictGet (handleDefaults cfg env item) "created_at" = some ca ∧
      encryptItem cfg env (dictSet (handleDefaults cfg env item) "modified_at" ca) =
        .ok pay := by
    have hpay1 := hpay
    simp only [createPayload] at hpay1
    cases hd : dictGet (handleDefaults cfg env item) "created_at" with
    | none =>
        rw [hd] at hpay1
        simp only [] at hpay1
        exact Except.noConfusion hpay1
    | some ca =>
        rw [hd] at hpay1
        simp only [] at hpay1
        exact ⟨ca, rfl, hpay1⟩
  have hid2 : dictGet pay "id" = some (.pstr env.uuid) := by
    rw [encryptItem_skips cfg env _ pay "id" hpayeq (fun p hp => (henc p hp).1),
      dictGet_dictSet_ne _ _ _ _ (by decide),
      handleDefaults_fills cfg env item "id" "<uuid>" hnoid hdef, tokensCheck_uuid]
  have hmodca : dictGet pay "modified_at" = some ca := by
    rw [encryptItem_skips cfg env _ pay "modified_at" hpayeq (fun p hp => (henc p hp).2.2),
      dictGet_dictSet_self]
  have hcaca : dictGet pay "created_at" = some ca := by
    rw [encryptItem_skips cfg env _ pay "created_at" hpayeq (fun p hp => (henc p hp).2.1),
      dictGet_dictSet_ne _ _ _ _ (by decide), hca]
  unfold create checkSupportedOp
  simp only [if_pos hop, hpay, callDDB, hput, newResponse]
  refine ⟨_, rfl, ?_, ?_, hid2, by rw [hmodca, hcaca], by rw [hmodca]; rfl⟩
  · rw [prepare_status]; rfl
  · rw [prepare_data]; rfl

/-- Claim C1 witness: creating the empty item in the default configuration
fills id with the generated uuid and equal timestamps. -/
theorem C1_witness_concrete :
    ∃ r, create cfg0 env0 .nil =
        .ok r [.putItem (.cons "id" (.pstr "uuid-1") (.cons "created_at" (.pint 1000)
          (.cons "modified_at" (.pint 1000) .nil)))] ∧
      r.status = "success" ∧
      r.data = some (.pdict (.cons "id" (.pstr "uuid-1") (.cons "created_at" (.pint 1000)
        (.cons "modified_at" (.pint 1000) .nil)))) ∧
      dictGet (.cons "id" (.pstr "uuid-1") (.cons "created_at" (.pint 1000)
        (.cons "modified_at" (.pint 1000) .nil))) "id" = some (.pstr env0.uuid) ∧
      dictGet (.cons "id" (.pstr "uuid-1") (.cons "created_at" (.pint 1000)
          (.cons "modified_at" (.pint 1000) .nil))) "modified_at" =
        dictGet (.cons "id" (.pstr "uuid-1") (.cons "created_at" (.pint 1000)
          (.cons "modified_at" (.pint 1000) .nil))) "created_at" ∧
      (dictGet (.cons "id" (.pstr "uuid-1") (.cons "created_at" (.pint 1000)
        (.cons "modified_at" (.pint 1000) .nil))) "modified_at").isSome :=
  C1_create_fills_fresh_id_copies_timestamp cfg0 env0 .nil
    (.cons "id" (.pstr "uuid-1") (.cons "created_at" (.pint 1000)
      (.cons "modified_at" (.pint 1000) .nil)))
    ⟨none, [], .pnone⟩ (by decide) rfl rfl (by simp [cfg0]) rfl rfl

/-- Claim C2 (amended): provided the store never reports error type
InvalidQuery itself, a query returns an InvalidQuery error envelope exactly
when the query string has no `=`, or splits at `=` into exactly two parts
whose left side is not an indexed attribute; in those cases no store request
is issued.  (The original "exactly when the string contains no `=` or the
attribute left of `=` is not indexed" is false for strings with two or more
`=`: there the two-variable unpacking of split raises ValueError instead of
returning an envelope.) -/
theorem C2_query_invalid_query_characterization (cfg : CRUDConfig) (env : Env) (qs : String)
    (hop : "query" ∈ cfg.supported_ops)
    (hstore : ∀ req, outcomeType (env.ddb req) ≠ some "InvalidQuery") :
    ((∃ r reqs, query cfg env qs = .ok r reqs ∧ r.error_type = some "InvalidQuery") ↔
      (qs.data.contains '=' = false ∨
        ∃ k v, splitEq qs.data = [k, v] ∧ alGet cfg.indexes (String.mk k) = none)) ∧
    ((qs.data.contains '=' = false ∨
        ∃ k v, splitEq qs.data = [k, v] ∧ alGet cfg.indexes (String.mk k) = none) →
      ∃ r, query cfg env qs = .ok r [] ∧ r.status = "error" ∧
        r.error_type = some "InvalidQuery") := by
  have hfwd : (qs.data.contains '=' = false ∨
      ∃ k v, splitEq qs.data = [k, v] ∧ alGet cfg.indexes (String.mk k) = none) →
      ∃ r, query cfg env qs = .ok r [] ∧ r.status = "error" ∧
        r.error_type = some "InvalidQuery" := by
    intro hcase
    unfold query checkSupportedOp
    simp only [if_pos hop]
    rcases hcase with hc | ⟨k, v, hs, hidx⟩
    · rw [if_pos hc]
      refine ⟨_, rfl, ?_, ?_⟩
      · rw [prepare_status]; rfl
      · rw [prepare_error_type]; rfl
    · have hc2 : qs.data.contains '=' = true := by
        apply (contains_iff_splitEq qs.data).mpr
        rw [hs]
        simp
      have hne : ¬(qs.data.contains '=' = false) := by rw [hc2]; simp
      rw [if_neg hne, hs]
      simp only [hidx]
      refine ⟨_, rfl, ?_, ?_⟩
      · rw [prepare_status]; rfl
      · rw [prepare_error_type]; rfl
  refine ⟨⟨?_, fun h => (hfwd h).elim (fun r hr => ⟨r, [], hr.1, hr.2.2⟩)⟩, hfwd⟩
  rintro ⟨r, reqs, heq, hty⟩
  by_cases hc : qs.data.contains '=' = false
  · exact Or.inl hc
  · right
    unfold query checkSupportedOp at heq
    simp only [if_pos hop] at heq
    rw [if_neg hc] at heq
    cases hs : splitEq qs.data with
    | nil => exact absurd hs (splitEq_ne_nil qs.data)
    | cons p ps =>
        rw [hs] at heq
        cases ps with
        | nil =>
            simp only [] at heq
            exact PyResult.noConfusion heq
        | cons p2 ps2 =>
            cases ps2 with
            | nil =>
                simp only [] at heq
                cases hidx : alGet cfg.indexes (String.mk p) with
                | none => exact ⟨p, p2, rfl, hidx⟩
                | some idxName =>
                    exfalso
                    rw [hidx] at heq
                    simp only [callDDB] at heq
                    cases ho : env.ddb (.queryIdx (String.mk p) (String.mk p2) idxName) with
                    | ok raw =>
                        rw [ho] at heq
                        simp only [newResponse, reduceIte] at heq
                        have hr := (PyResult.ok.inj heq).1
                        rw [← hr, prepare_error_type] at hty
                        simp [setData] at hty
                    | clientError m c t =>
                        rw [ho] at heq
                        simp only [newResponse, reduceIte] at heq
                        have hr := (PyResult.ok.inj heq).1
                        rw [← hr, prepare_error_type] at hty
                        have hne2 := hstore (.queryIdx (String.mk p) (String.mk p2) idxName)
                        rw [ho] at hne2
                        exact hne2 hty
                    | exn cls msg =>
                        rw [ho] at heq
                        simp only [newResponse, reduceIte] at heq
                        have hr := (PyResult.ok.inj heq).1
                        rw [← hr, prepare_error_type] at hty
                        have hne2 := hstore (.queryIdx (String.mk p) (String.mk p2) idxName)
                        rw [ho] at hne2
                        exact hne2 hty
            | cons p3 ps3 =>
                simp only [] at heq
                exact PyResult.noConfusion heq

/-- Claim C2 witness: with a single index on "name", a query on the
non-indexed attribute "city" yields InvalidQuery with no store request, and a
query on "name" does not. -/
theorem C2_witness_concrete :
    (∃ r, query ⟨[("id", "<uuid>"), ("created_at", "<timestamp>")], SupportedOps, [],
        [("name", "name-index")], false⟩ env0 "city=x" = .ok r [] ∧
      r.status = "error" ∧ r.error_type = some "InvalidQuery") ∧
    ¬(∃ r reqs, query ⟨[("id", "<uuid>"), ("created_at", "<timestamp>")], SupportedOps, [],
        [("name", "name-index")], false⟩ env0 "name=x" = .ok r reqs ∧
      r.error_type = some "InvalidQuery") :=
  ⟨(C2_query_invalid_query_characterization
      ⟨[("id", "<uuid>"), ("created_at", "<timestamp>")], SupportedOps, [],
        [("name", "name-index")], false⟩ env0 "city=x" (by decide)
      (fun req => by simp [env0, outcomeType])).2
      (Or.inr ⟨"city".data, "x".data, by decide, by decide⟩),
   fun hex =>
     by
      have h := ((C2_query_invalid_query_characterization
        ⟨[("id", "<uuid>"), ("created_at", "<timestamp>")], SupportedOps, [],
          [("name", "name-index")], false⟩ env0 "name=x" (by decide)
        (fun req => by simp [env0, outcomeType])).1).mp hex
      rcases h with hc | ⟨k, v, hs, hidx⟩
      · simp at hc
      · have hk : k = "name".data := by
          have : splitEq "name=x".data = ["name".data, "x".data] := by decide
          rw [this] at hs
          exact (List.cons.inj hs).1.symm
        rw [hk] at hidx
        simp [alGet] at hidx⟩

/-- Claim C2 counterexample: with no indexes configured, the string "a=b=c"
has an `=` and its left attribute "a" is not indexed, so the original claim
demands an InvalidQuery envelope; the code instead raises ValueError from the
two-variable unpacking of split. -/
theorem C2_counterexample_double_equals :
    "a=b=c".data.contains '=' = true ∧
    alGet cfg0.indexes "a" = none ∧
    query cfg0 env0 "a=b=c" = .raise ⟨"ValueError", "too many values to unpack"⟩ :=
  ⟨rfl, rfl, rfl⟩

/-- Claim C7: creating an item carrying a configured encrypted attribute
writes base64-encoded KMS ciphertext for it, and a subsequent get with
decrypt on a store that returns the written item yields the original
plaintext, assuming the key service calls succeed and decrypt inverts
encrypt (hblob, hkms), KMS blobs are bytes (hbytes), and the plaintext
contains no Decimal (so the read path decimal conversion leaves it
unchanged). -/
theorem C7_encrypt_decrypt_roundtrip (cfg : CRUDConfig) (env env2 : Env)
    (item pay : Item) (attr keyId : String) (blob : List Nat) (plain idv md : PyVal)
    (rawPut : RawResponse)
    (hcrop : "create" ∈ cfg.supported_ops) (hgetop : "get" ∈ cfg.supported_ops)
    (henc : cfg.encrypted_attributes = [(attr, keyId)])
    (hattr : dictGet item attr = some plain)
    (hmod : attr ≠ "modified_at")
    (hblob : env.kmsEncrypt keyId plain = .ok blob)
    (hkms : env2.kmsDecrypt blob = .ok plain)
    (hbytes : ∀ b ∈ blob, b < 256)
    (hplain : noDecimal plain = true)
    (hpay : createPayload cfg env item = .ok pay)
    (hput : env.ddb (.putItem pay) = .ok rawPut)
    (hid : idv ≠ .pnone)
    (hstore : env2.ddb (.getItem (.cons "id" idv .nil) true) = .ok ⟨some pay, [], md⟩) :
    (∃ rc, create cfg env item = .ok rc [.putItem pay] ∧ rc.status = "success") ∧
    (∃ r d, get cfg env2 idv true = .ok r [.getItem (.cons "id" idv .nil) true] ∧
      r.status = "success" ∧ r.data = some (.pdict d) ∧
      dictGet d attr = some plain) := by
  obtain ⟨ca, hca, hpayeq⟩ : ∃ ca,
      dictGet (handleDefaults cfg env item) "created_at" = some ca ∧
      encryptItem cfg env (dictSet (handleDefaults cfg env item) "modified_at" ca) =
        .ok pay := by
    have hpay1 := hpay
    simp only [createPayload] at hpay1
    cases hd : dictGet (handleDefaults cfg env item) "created_at" with
    | none =>
        rw [hd] at hpay1
        simp only [] at hpay1
        exact Except.noConfusion hpay1
    | some ca =>
        rw [hd] at hpay1
        simp only [] at hpay1
        exact ⟨ca, rfl, hpay1⟩
  have hXattr : dictGet (dictSet (handleDefaults cfg env item) "modified_at" ca) attr =
      some plain := by
    rw [dictGet_dictSet_ne _ _ _ _ (Ne.symm hmod),
      handleDefaults_preserves cfg env item attr plain hattr]
  have hpay2 : pay = dictSet (dictSet (handleDefaults cfg env item) "modified_at" ca) attr
      (.pstr (String.mk (base64Encode blob))) := by
    unfold encryptItem at hpayeq
    rw [henc] at hpayeq
    simp only [encryptList, hXattr, hblob] at hpayeq
    exact (Except.ok.inj hpayeq).symm
  have hlook : dictGet pay attr = some (.pstr (String.mk (base64Encode blob))) := by
    rw [hpay2]
    exact dictGet_dictSet_self _ _ _
  have hdec : decryptItem cfg env2 pay = .ok (dictSet pay attr plain) := by
    unfold decryptItem
    rw [henc]
    simp only [decryptList, hlook]
    rw [base64Decode_encode blob hbytes]
    simp only [hkms]
  constructor
  · unfold create checkSupportedOp
    simp only [if_pos hcrop, hpay, callDDB, hput, newResponse]
    refine ⟨_, rfl, ?_⟩
    rw [prepare_status]; rfl
  · unfold get checkSupportedOp
    simp only [if_pos hgetop, if_neg hid, callDDB, hstore, newResponse, hdec]
    refine ⟨prepare (setData ⟨cfg.debug, "success", none, none, none, none,
        some ⟨some pay, [], md⟩, none⟩
        (replaceDecimals (.pdict (dictSet pay attr plain)))),
      replaceDecimalsDict (dictSet pay attr plain), rfl, ?_, ?_, ?_⟩
    · rw [prepare_status]; rfl
    · rw [prepare_data]; rfl
    · rw [dictGet_replaceDecimalsDict, dictGet_dictSet_self]
      simp [replaceDecimals_id plain hplain]

/-- Environment of the creating call: KMS encrypts to the byte blob [7, 200]. -/
def envEncC : Env :=
  ⟨fun _ => .ok ⟨none, [], .pnone⟩, fun _ _ => .ok [7, 200], fun _ => .ok .pnone, "u", 5⟩

/-- The payload that create writes for the witness item: "secret" replaced by
the base64 encoding of the blob, defaults and timestamps filled. -/
def payC7 : Item :=
  .cons "secret" (.pstr "B8g=") (.cons "id" (.pstr "u") (.cons "created_at" (.pint 5)
    (.cons "modified_at" (.pint 5) .nil)))

/-- Environment of the reading call: the store returns the written item and
KMS decrypts the blob [7, 200] back to the plaintext. -/
def envEncG : Env :=
  ⟨fun _ => .ok ⟨some payC7, [], .pnone⟩, fun _ _ => .ok [],
   fun bs => if bs = [7, 200] then .ok (.pstr "topsecret") else .ok .pnone, "u2", 6⟩

/-- Claim C7 witness: the concrete encrypt-then-decrypt round trip. -/
theorem C7_witness_concrete :
    (∃ rc, create cfgEnc envEncC (.cons "secret" (.pstr "topsecret") .nil) =
        .ok rc [.putItem payC7] ∧ rc.status = "success") ∧
    (∃ r d, get cfgEnc envEncG (.pstr "u") true =
        .ok r [.getItem (.cons "id" (.pstr "u") .nil) true] ∧
      r.status = "success" ∧ r.data = some (.pdict d) ∧
      dictGet d "secret" = some (.pstr "topsecret")) :=
  C7_encrypt_decrypt_roundtrip cfgEnc envEncC envEncG
    (.cons "secret" (.pstr "topsecret") .nil) payC7 "secret" "k1" [7, 200]
    (.pstr "topsecret") (.pstr "u") .pnone ⟨none, [], .pnone⟩
    (by decide) (by decide) rfl rfl (by decide) rfl rfl (by decide) rfl
    rfl rfl (by decide) rfl

end Cruddy
